import Mathlib

/-!
Shallow embedding of `vdsearch/commands/ribozyme_filter.py`.

The module has two pieces of logic:

* `parse_cm_file` — a line-oriented parser of an Infernal CM file into a
  table mapping profile names to their GA/TC/NC score cutoffs;
* `ribozyme_filter` — the classifier: it groups hit rows by ribozyme
  (profile) name, accumulates three evidence sets of sequence ids
  (`rz_plus`, `rz_minus`, `rz_significant`) using the per-profile score
  cutoff and/or the e-value thresholds, derives the dual-polarity,
  single-polarity and viroid-like id sets, and returns the tagged row
  subsets (or `none` on the two "nothing to do / nothing found" paths).

Numbers (scores, e-values, cutoffs) are modelled as exact rationals `ℚ`.
Python raising an exception (`KeyError` on a missing cutoff profile,
`IndexError`/`ValueError` in the parser) is modelled as `Except.error ()`.
The comparison `evalue < max_evalue ** 0.5` is modelled by the decidable
predicate `ltSqrt`, proved below (`ltSqrt_iff_lt_sqrt`) to agree with the
real-number statement `evalue < Real.sqrt max_evalue` whenever
`max_evalue > 0`.
-/

deriving instance DecidableEq for Except

namespace Vdsearch

/-- Strand of a hit: column 9 of the Infernal tblout, `'+'` or `'-'`. -/
inductive Strand where
  | plus
  | minus
deriving DecidableEq, Repr

/-- One row of the Infernal tabular output, as read by `pd.read_csv` in
`ribozyme_filter` (columns 0,1,2,7,8,9,14,15,16 named
`seq_id, accession, ribozyme, from, to, strand, score, evalue, inc`). -/
structure Hit where
  seq_id : String
  accession : String
  ribozyme : String
  hit_from : Int
  hit_to : Int
  strand : Strand
  score : ℚ
  evalue : ℚ
  inc : String
deriving DecidableEq, Repr

/-- The three score cutoffs of one CM block (`GA`, `TC`, `NC` lines). -/
structure CmCutoff where
  GA : ℚ
  TC : ℚ
  NC : ℚ
deriving DecidableEq, Repr

/-- The `CmCutoffType` enum of the source: which cutoff line to use. -/
inductive CmCutoffType where
  | GA
  | NC
  | TC
deriving DecidableEq, Repr

/-- Selection `cutoffs[name][cm_cutoff_type]` of the requested cutoff. -/
def CmCutoff.get (c : CmCutoff) : CmCutoffType → ℚ
  | CmCutoffType.GA => c.GA
  | CmCutoffType.NC => c.NC
  | CmCutoffType.TC => c.TC

/-- The cutoff table returned by `parse_cm_file`: a Python dict modelled as
an association list in insertion order with unique keys. -/
abbrev CmTable := List (String × CmCutoff)

/-- Python dict lookup `cutoffs[name]` (first matching key). -/
def lookupCutoff : CmTable → String → Option CmCutoff
  | [], _ => none
  | (k, v) :: t, n => if k = n then some v else lookupCutoff t n

/-- The keyword arguments of `ribozyme_filter` that drive classification. -/
structure Config where
  use_cm_cutoff : Bool
  cm_cutoff_type : CmCutoffType
  use_evalue_cutoff : Bool
  max_evalue : ℚ
deriving DecidableEq, Repr

/-- Decidable form of the Python comparison `evalue < max_evalue ** 0.5`
over the rationals: a rational `e` is below `Real.sqrt m` (for `m > 0`)
iff `e < 0` or `e * e < m`; the square comparison is phrased on numerators
and denominators to stay kernel-computable.  Justified by
`ltSqrt_iff_lt_sqrt` below. -/
def ltSqrt (e m : ℚ) : Bool :=
  decide (e < 0) ||
    decide (e.num * e.num * (m.den : ℤ) < m.num * ((e.den : ℤ) * (e.den : ℤ)))

/-- The set of `seq_id`s of a list of rows (`.seq_id` column, de-duplicated
by the Python `set.update`). -/
def seqIds (l : List Hit) : Finset String :=
  (l.map Hit.seq_id).toFinset

/-- Queries `rz_df.query("strand == '+' & score > c").seq_id` etc.: the
three sets a group contributes under the CM score cutoff `c`
(lines 118–131). -/
def cutoffGroupSets (c : ℚ) (rz_df : List Hit) :
    Finset String × Finset String × Finset String :=
  (seqIds (rz_df.filter fun h => decide (h.strand = Strand.plus) && decide (c < h.score)),
   seqIds (rz_df.filter fun h => decide (h.strand = Strand.minus) && decide (c < h.score)),
   seqIds (rz_df.filter fun h => decide (c < h.score)))

/-- The three sets a group contributes under the e-value cutoff
(lines 133–141), empty when `use_evalue_cutoff` is off. -/
def evalueGroupSets (cfg : Config) (rz_df : List Hit) :
    Finset String × Finset String × Finset String :=
  if cfg.use_evalue_cutoff then
    (seqIds (rz_df.filter fun h => decide (h.strand = Strand.plus) && ltSqrt h.evalue cfg.max_evalue),
     seqIds (rz_df.filter fun h => decide (h.strand = Strand.minus) && ltSqrt h.evalue cfg.max_evalue),
     seqIds (rz_df.filter fun h => decide (h.evalue < cfg.max_evalue)))
  else (∅, ∅, ∅)

/-- The body of the `for rz_name, rz_df in ribozymes.groupby(...)` loop for
one group: the sets added to `rz_plus`, `rz_minus`, `rz_significant`.
When `use_cm_cutoff and cutoffs` holds, `cutoffs[rz_name]` is looked up
eagerly inside the query strings; a missing profile raises `KeyError`,
modelled as `Except.error ()`. -/
def groupContrib (cutoffs : CmTable) (cfg : Config) (rz_name : String)
    (rz_df : List Hit) :
    Except Unit (Finset String × Finset String × Finset String) :=
  if cfg.use_cm_cutoff && !cutoffs.isEmpty then
    match lookupCutoff cutoffs rz_name with
    | none => Except.error ()
    | some cut =>
      let cs := cutoffGroupSets (cut.get cfg.cm_cutoff_type) rz_df
      let es := evalueGroupSets cfg rz_df
      Except.ok (cs.1 ∪ es.1, cs.2.1 ∪ es.2.1, cs.2.2 ∪ es.2.2)
  else Except.ok (evalueGroupSets cfg rz_df)

/-- The grouping loop itself: fold the per-group contributions into the
accumulated `(rz_plus, rz_minus, rz_significant)` (the Python `set.update`
is set union); the first `KeyError` aborts the run. -/
def processGroups (cutoffs : CmTable) (cfg : Config) :
    List (String × List Hit) →
    Finset String × Finset String × Finset String →
    Except Unit (Finset String × Finset String × Finset String)
  | [], acc => Except.ok acc
  | g :: gs, acc =>
    match groupContrib cutoffs cfg g.1 g.2 with
    | Except.error e => Except.error e
    | Except.ok u =>
      processGroups cutoffs cfg gs (acc.1 ∪ u.1, acc.2.1 ∪ u.2.1, acc.2.2 ∪ u.2.2)

/-- Grouping keys of `ribozymes.groupby(["ribozyme"])`: the distinct
ribozyme names. -/
def ribozymeNames (hits : List Hit) : List String :=
  (hits.map Hit.ribozyme).dedup

/-- The rows of one group: all hits with the given ribozyme name. -/
def groupOf (hits : List Hit) (n : String) : List Hit :=
  hits.filter fun h => decide (h.ribozyme = n)

/-- The groups handed to the loop, one per distinct ribozyme name. -/
def groups (hits : List Hit) : List (String × List Hit) :=
  (ribozymeNames hits).map fun n => (n, groupOf hits n)

/-- The evidence sets `(rz_plus, rz_minus, rz_significant)` computed by the
whole grouping loop, starting from three empty sets. -/
def evidenceSets (hits : List Hit) (cutoffs : CmTable) (cfg : Config) :
    Except Unit (Finset String × Finset String × Finset String) :=
  processGroups cutoffs cfg (groups hits) (∅, ∅, ∅)

/-- Python `line.startswith(p)`. -/
def strStartsWith (s p : String) : Bool :=
  decide (s.data.take p.data.length = p.data)

/-- Splitter behind Python `line.split()`: cut a character list at
whitespace, dropping empty pieces (`cur` is the current word, reversed). -/
def wordsAux : List Char → List Char → List (List Char)
  | [], cur => if cur = [] then [] else [cur.reverse]
  | c :: cs, cur =>
    if c.isWhitespace then
      if cur = [] then wordsAux cs [] else cur.reverse :: wordsAux cs []
    else wordsAux cs (c :: cur)

/-- Python `line.split()`: whitespace-separated tokens. -/
def tokens (l : String) : List String :=
  (wordsAux l.data []).map fun w => String.mk w

/-- Python `line.split()[1]` as an `Option` (Python raises `IndexError`
when the line has fewer than two tokens). -/
def secondToken (l : String) : Option String :=
  (tokens l).get? 1

/-- Python `"INFERNAL" in line`: the sentinel test that starts a new
block. -/
def containsSentinel (l : String) : Bool :=
  (List.range (l.data.length + 1)).any fun i =>
    decide ((l.data.drop i).take 8 = "INFERNAL".data)

/-- Value of a digit string, most significant digit first. -/
def digitsVal (cs : List Char) : ℕ :=
  cs.foldl (fun n c => n * 10 + (c.toNat - 48)) 0

/-- Python `s.split('.')` for the decimal point of a numeral. -/
def splitDot : List Char → List (List Char)
  | [] => [[]]
  | c :: cs =>
    if c = '.' then [] :: splitDot cs
    else
      match splitDot cs with
      | [] => [[c]]
      | w :: ws => (c :: w) :: ws

/-- An unsigned decimal numeral (`45`, `45.3`, `45.`, `.3`) as an exact
rational; `none` for anything else. -/
def parseDecimal (s : List Char) : Option ℚ :=
  match splitDot s with
  | [a] =>
    if a ≠ [] && a.all Char.isDigit then some (digitsVal a : ℚ) else none
  | [a, b] =>
    if (a ≠ [] || b ≠ []) && a.all Char.isDigit && b.all Char.isDigit then
      some (mkRat (digitsVal (a ++ b)) (10 ^ b.length))
    else none
  | _ => none

/-- Python `float(s)` restricted to the plain signed decimal numerals that
appear on CM `GA`/`TC`/`NC` lines; other strings give `none` (Python would
raise `ValueError`). -/
def parseFloat (s : String) : Option ℚ :=
  match s.data with
  | '-' :: rest => (parseDecimal rest).map fun q => -q
  | '+' :: rest => parseDecimal rest
  | cs => parseDecimal cs

/-- Python `line.startswith("NAME")`. -/
def isNameLine (l : String) : Bool := strStartsWith l "NAME"

/-- Python `line.startswith("GA")`. -/
def isGaLine (l : String) : Bool := strStartsWith l "GA"

/-- Python `line.startswith("TC")`. -/
def isTcLine (l : String) : Bool := strStartsWith l "TC"

/-- Python `line.startswith("NC")`. -/
def isNcLine (l : String) : Bool := strStartsWith l "NC"

/-- Python `float(line.split()[1])` as an `Option` (`none` when the line
has no second token or it is not a numeral). -/
def readFloatTok (l : String) : Option ℚ :=
  (secondToken l).bind parseFloat

/-- The loop state of `parse_cm_file`: `last_name`, the three fields of
`last_cutoff`, and the `cutoffs` dict built so far. -/
structure PState where
  last_name : String
  ga : ℚ
  tc : ℚ
  nc : ℚ
  table : CmTable
deriving DecidableEq, Repr

/-- State before the loop: empty name, all cutoffs `0.0`, empty dict. -/
def initState : PState := ⟨"", 0, 0, 0, []⟩

/-- Python dict assignment `d[k] = v`: overwrite in place if the key
exists, else append. -/
def dictInsert (t : CmTable) (k : String) (v : CmCutoff) : CmTable :=
  if (lookupCutoff t k).isSome then
    t.map fun p => if p.1 = k then (k, v) else p
  else t ++ [(k, v)]

/-- Flush `cutoffs[last_name] = last_cutoff` of the in-progress block. -/
def flushBlock (st : PState) : CmTable :=
  dictInsert st.table st.last_name ⟨st.ga, st.tc, st.nc⟩

/-- One iteration of the `for line in f` loop of `parse_cm_file`.  On a
sentinel line the previous block is flushed (only when `last_name` is
non-empty) and the state is reset; `NAME`/`GA`/`TC`/`NC` lines update the
state; malformed lines (too few tokens, non-numeric value) raise, modelled
as `Except.error ()`; any other line is ignored. -/
def parseLine (st : PState) (line : String) : Except Unit PState :=
  if containsSentinel line then
    Except.ok
      { last_name := "", ga := 0, tc := 0, nc := 0
        table := if st.last_name ≠ "" then flushBlock st else st.table }
  else if isNameLine line then
    match secondToken line with
    | some n => Except.ok { st with last_name := n }
    | none => Except.error ()
  else if isGaLine line then
    match readFloatTok line with
    | some v => Except.ok { st with ga := v }
    | none => Except.error ()
  else if isTcLine line then
    match readFloatTok line with
    | some v => Except.ok { st with tc := v }
    | none => Except.error ()
  else if isNcLine line then
    match readFloatTok line with
    | some v => Except.ok { st with nc := v }
    | none => Except.error ()
  else Except.ok st

/-- The whole `for line in f` loop. -/
def parseLines : PState → List String → Except Unit PState
  | st, [] => Except.ok st
  | st, l :: ls =>
    match parseLine st l with
    | Except.error e => Except.error e
    | Except.ok st' => parseLines st' ls

/-- The function `parse_cm_file`, over the file's lines.  After the loop the last
in-progress block is flushed unconditionally
(`cutoffs[last_name] = last_cutoff`, line 61 of the source). -/
def parse_cm_file (ls : List String) : Except Unit CmTable :=
  match parseLines initState ls with
  | Except.error e => Except.error e
  | Except.ok st => Except.ok (flushBlock st)

/-- Line 144, `double_rz_ids = rz_plus.intersection(rz_minus)`. -/
def double_rz_ids (P M : Finset String) : Finset String := P ∩ M

/-- Line 146, `single_rz_ids = rz_significant.difference(double_rz_ids)`. -/
def single_rz_ids (P M S : Finset String) : Finset String :=
  S \ double_rz_ids P M

/-- Line 148, the union `ribozy_likes_ids` of the two id sets. -/
def ribozy_likes_ids (P M S : Finset String) : Finset String :=
  double_rz_ids P M ∪ single_rz_ids P M S

/-- The `Polarity` column after the two `.loc` assignments: double ids get
`"(+) and (-)"`, then single ids get `"(+)"` (last assignment wins; the two
id sets are disjoint), all other rows keep no value. -/
def tagPolarity (dbl sgl : Finset String) (h : Hit) : Option String :=
  if h.seq_id ∈ sgl then some "(+)"
  else if h.seq_id ∈ dbl then some "(+) and (-)"
  else none

/-- The dict returned by `ribozyme_filter` on success: the three filtered
row subsets, each row carried with its `Polarity` tag. -/
structure ClassificationResult where
  single_rzs : List (Hit × Option String)
  double_rzs : List (Hit × Option String)
  ribozy_likes : List (Hit × Option String)
deriving DecidableEq, Repr

/-- The dict built on the success path (lines 162–180): the rows tagged
with their `Polarity` value, filtered down to the single-, double- and
viroid-like id sets. -/
def buildResult (hits : List Hit) (P M S : Finset String) : ClassificationResult :=
  let dbl := double_rz_ids P M
  let sgl := single_rz_ids P M S
  let likes := ribozy_likes_ids P M S
  let tagged := hits.map fun h => (h, tagPolarity dbl sgl h)
  { single_rzs := tagged.filter fun r => decide (r.1.seq_id ∈ sgl)
    double_rzs := tagged.filter fun r => decide (r.1.seq_id ∈ dbl)
    ribozy_likes := tagged.filter fun r => decide (r.1.seq_id ∈ likes) }

/-- The classifier `ribozyme_filter(...)`, taking the already-parsed hit
rows and cutoff table.  `Except.ok none` models the two `return` (None)
paths (no rows to analyze; no viroid-like ids); `Except.error ()` models an
uncaught `KeyError` from a cutoff lookup. -/
def ribozyme_filter (hits : List Hit) (cutoffs : CmTable) (cfg : Config) :
    Except Unit (Option ClassificationResult) :=
  if hits.isEmpty then Except.ok none
  else
    match evidenceSets hits cutoffs cfg with
    | Except.error e => Except.error e
    | Except.ok (rz_plus, rz_minus, rz_significant) =>
      if ribozy_likes_ids rz_plus rz_minus rz_significant = ∅ then Except.ok none
      else Except.ok (some (buildResult hits rz_plus rz_minus rz_significant))

/-- Test `score > cutoffs[h.ribozyme][cm_cutoff_type]`, false when the
profile is absent (only used in runs where no lookup fails). -/
def cutoffScorePass (cutoffs : CmTable) (cfg : Config) (h : Hit) : Bool :=
  match lookupCutoff cutoffs h.ribozyme with
  | some cut => decide (cut.get cfg.cm_cutoff_type < h.score)
  | none => false

/-- Whether a hit lands in `rz_plus`. -/
def plusCond (cutoffs : CmTable) (cfg : Config) (h : Hit) : Bool :=
  (cfg.use_cm_cutoff && !cutoffs.isEmpty && (decide (h.strand = Strand.plus) &&
      cutoffScorePass cutoffs cfg h)) ||
  (cfg.use_evalue_cutoff && (decide (h.strand = Strand.plus) &&
      ltSqrt h.evalue cfg.max_evalue))

/-- Whether a hit lands in `rz_minus`. -/
def minusCond (cutoffs : CmTable) (cfg : Config) (h : Hit) : Bool :=
  (cfg.use_cm_cutoff && !cutoffs.isEmpty && (decide (h.strand = Strand.minus) &&
      cutoffScorePass cutoffs cfg h)) ||
  (cfg.use_evalue_cutoff && (decide (h.strand = Strand.minus) &&
      ltSqrt h.evalue cfg.max_evalue))

/-- Whether a hit lands in `rz_significant`. -/
def sigCond (cutoffs : CmTable) (cfg : Config) (h : Hit) : Bool :=
  (cfg.use_cm_cutoff && !cutoffs.isEmpty && cutoffScorePass cutoffs cfg h) ||
  (cfg.use_evalue_cutoff && decide (h.evalue < cfg.max_evalue))

/-- The final `rz_plus` set, characterized over all hits at once. -/
def plusSet (hits : List Hit) (cutoffs : CmTable) (cfg : Config) : Finset String :=
  seqIds (hits.filter (plusCond cutoffs cfg))

/-- The final `rz_minus` set, characterized over all hits at once. -/
def minusSet (hits : List Hit) (cutoffs : CmTable) (cfg : Config) : Finset String :=
  seqIds (hits.filter (minusCond cutoffs cfg))

/-- The final `rz_significant` set, characterized over all hits at once. -/
def sigSet (hits : List Hit) (cutoffs : CmTable) (cfg : Config) : Finset String :=
  seqIds (hits.filter (sigCond cutoffs cfg))

/-- The final `ribozy_likes_ids` set, over all hits at once. -/
def viroidLikeIds (hits : List Hit) (cutoffs : CmTable) (cfg : Config) : Finset String :=
  ribozy_likes_ids (plusSet hits cutoffs cfg) (minusSet hits cutoffs cfg)
    (sigSet hits cutoffs cfg)

/-- No profile appearing in the hits is missing from the cutoff lookup
(vacuously true when the cutoff branch is disabled or the table empty). -/
def NoMissingCutoff (hits : List Hit) (cutoffs : CmTable) (cfg : Config) : Prop :=
  cfg.use_cm_cutoff = true → cutoffs ≠ [] →
    ∀ h ∈ hits, (lookupCutoff cutoffs h.ribozyme).isSome

instance (hits : List Hit) (cutoffs : CmTable) (cfg : Config) :
    Decidable (NoMissingCutoff hits cutoffs cfg) :=
  decidable_of_iff
    (cfg.use_cm_cutoff = true → cutoffs ≠ [] →
      ∀ h ∈ hits, (lookupCutoff cutoffs h.ribozyme).isSome = true) Iff.rfl

/-- Union of a finite family of sets indexed by a list of names. -/
def unionOver (f : String → Finset String) : List String → Finset String
  | [] => ∅
  | n :: ns => f n ∪ unionOver f ns

/-- A plus-strand hit of `Twister-P5` with score 50. -/
def exHitPlus : Hit :=
  ⟨"s1", "acc", "Twister-P5", 1, 2, Strand.plus, 50, 1, "!"⟩

/-- A minus-strand hit of `Twister-P5` with score 50. -/
def exHitMinus : Hit :=
  ⟨"s2", "acc", "Twister-P5", 1, 2, Strand.minus, 50, 1, "!"⟩

/-- A one-profile cutoff table with `GA = 45`. -/
def exTable : CmTable := [("Twister-P5", ⟨45, 46, 30⟩)]

/-- Cutoff filtering only, `GA` cutoffs. -/
def exCfgCut : Config := ⟨true, CmCutoffType.GA, false, 1⟩

/-- A plus-strand hit with e-value `0.001`. -/
def exHitE1 : Hit :=
  ⟨"s3", "acc", "Hammerhead-9", 1, 2, Strand.plus, 10, mkRat 1 1000, "!"⟩

/-- A plus-strand hit with e-value `0.05`: above `max_evalue = 0.01` but
below `sqrt 0.01 = 0.1`. -/
def exHitE2 : Hit :=
  ⟨"s4", "acc", "Hammerhead-9", 1, 2, Strand.plus, 10, mkRat 5 100, "!"⟩

/-- E-value filtering only, `max_evalue = 0.01`. -/
def exCfgEv : Config := ⟨false, CmCutoffType.GA, true, mkRat 1 100⟩

/-- All filters off. -/
def exCfgOff : Config := ⟨false, CmCutoffType.GA, false, 1⟩

/-- A hit whose profile `Pistol` has no entry in `exTable`. -/
def exHitMissing : Hit :=
  ⟨"s5", "acc", "Pistol", 1, 2, Strand.plus, 50, mkRat 1 1000, "!"⟩

/-- Both filters on, `GA` cutoffs, `max_evalue = 0.01`. -/
def exCfgBoth : Config := ⟨true, CmCutoffType.GA, true, mkRat 1 100⟩

/-- A hit whose profile `Twister-P1` has no entry in `exTable`. -/
def exHitMissing2 : Hit :=
  ⟨"s6", "acc", "Twister-P1", 1, 2, Strand.minus, 60, mkRat 1 2000, "!"⟩

/-- E-value filtering only, `max_evalue = 0.25`. -/
def exCfgEvBig : Config := ⟨false, CmCutoffType.GA, true, mkRat 1 4⟩

/-- Three hits over two profiles. -/
def exHits8 : List Hit := [exHitPlus, exHitMinus, exHitE1]

/-- The groups of `exHits8`, in reversed order. -/
def exGroups8 : List (String × List Hit) := (groups exHits8).reverse

/-- The per-group contributions of `exHits8` under `exCfgEv`. -/
def exContrib8 : String × List Hit → Finset String × Finset String × Finset String :=
  fun g =>
    match groupContrib [] exCfgEv g.1 g.2 with
    | Except.ok v => v
    | Except.error _ => (∅, ∅, ∅)

/-- How one field of the parser state relates to the matching lines: set by
the last matching line, or preserved when no line matches. -/
def FieldSpec {α : Type} (lines : List String) (p : String → Bool)
    (read : String → Option α) (old new : α) : Prop :=
  match (lines.filter p).getLast? with
  | none => new = old
  | some l => read l = some new

/-- A one-block CM file with no trailing sentinel and no `TC` line. -/
def exLs7 : List String := ["NAME Twister-P5", "GA 45", "NC 30"]

/-- A line that triggers none of the parser's cases: not a sentinel, and
starting with none of the four keywords. -/
def inertLine (l : String) : Bool :=
  !containsSentinel l && !isNameLine l && !isGaLine l && !isTcLine l && !isNcLine l

/-! ### Theorems -/

theorem mem_seqIds {l : List Hit} {x : String} :
    x ∈ seqIds l ↔ ∃ h ∈ l, h.seq_id = x := by
  simp [seqIds]

theorem seqIds_filter_union (l : List Hit) (p q : Hit → Bool) :
    seqIds (l.filter p) ∪ seqIds (l.filter q) =
      seqIds (l.filter fun h => p h || q h) := by
  ext x
  simp only [Finset.mem_union, mem_seqIds, List.mem_filter, Bool.or_eq_true]
  constructor
  · rintro (⟨h, ⟨hm, hp⟩, hx⟩ | ⟨h, ⟨hm, hq⟩, hx⟩)
    · exact ⟨h, ⟨hm, Or.inl hp⟩, hx⟩
    · exact ⟨h, ⟨hm, Or.inr hq⟩, hx⟩
  · rintro ⟨h, ⟨hm, hp | hq⟩, hx⟩
    · exact Or.inl ⟨h, ⟨hm, hp⟩, hx⟩
    · exact Or.inr ⟨h, ⟨hm, hq⟩, hx⟩

theorem seqIds_filter_false (l : List Hit) (p : Hit → Bool)
    (hp : ∀ h ∈ l, p h = false) : seqIds (l.filter p) = ∅ := by
  ext x
  simp only [mem_seqIds, List.mem_filter, Finset.not_mem_empty, iff_false]
  rintro ⟨h, ⟨hm, hph⟩, -⟩
  simp [hp h hm] at hph

theorem lookupCutoff_ne_nil {cutoffs : CmTable} {n : String} {cut : CmCutoff}
    (h : lookupCutoff cutoffs n = some cut) : cutoffs ≠ [] := by
  intro he
  subst he
  simp [lookupCutoff] at h

theorem isEmpty_eq_false_of_ne_nil {cutoffs : CmTable} (h : cutoffs ≠ []) :
    cutoffs.isEmpty = false := by
  cases cutoffs with
  | nil => exact absurd rfl h
  | cons a t => rfl

theorem groupContrib_eq (cutoffs : CmTable) (cfg : Config) (n : String)
    (rz_df : List Hit) (hall : ∀ h ∈ rz_df, h.ribozyme = n)
    (hl : cfg.use_cm_cutoff = true → cutoffs ≠ [] → (lookupCutoff cutoffs n).isSome) :
    groupContrib cutoffs cfg n rz_df =
      Except.ok (seqIds (rz_df.filter (plusCond cutoffs cfg)),
                 seqIds (rz_df.filter (minusCond cutoffs cfg)),
                 seqIds (rz_df.filter (sigCond cutoffs cfg))) := by
  by_cases hb : (cfg.use_cm_cutoff && !cutoffs.isEmpty) = true
  · have hcm : cfg.use_cm_cutoff = true := (Bool.and_eq_true _ _ |>.mp hb).1
    have hne : cutoffs ≠ [] := by
      intro he
      subst he
      simp at hb
    obtain ⟨cut, hcut⟩ := Option.isSome_iff_exists.mp (hl hcm hne)
    simp only [groupContrib, hb, if_true, hcut]
    by_cases huev : cfg.use_evalue_cutoff = true
    · simp only [cutoffGroupSets, evalueGroupSets, huev, if_true, Except.ok.injEq,
        Prod.mk.injEq]
      refine ⟨?_, ?_, ?_⟩ <;>
        · rw [seqIds_filter_union]
          congr 1
          refine List.filter_congr fun h hm => ?_
          simp [plusCond, minusCond, sigCond, cutoffScorePass, hall h hm, hcut, hcm,
            huev, isEmpty_eq_false_of_ne_nil hne]
    · have huev' : cfg.use_evalue_cutoff = false := by
        cases hu : cfg.use_evalue_cutoff
        · rfl
        · exact absurd hu huev
      simp only [cutoffGroupSets, evalueGroupSets, huev', if_false, Bool.false_eq_true,
        Except.ok.injEq, Prod.mk.injEq, Finset.union_empty]
      refine ⟨?_, ?_, ?_⟩ <;>
        · congr 1
          refine List.filter_congr fun h hm => ?_
          simp [plusCond, minusCond, sigCond, cutoffScorePass, hall h hm, hcut, hcm,
            huev', isEmpty_eq_false_of_ne_nil hne]
  · have hb' : (cfg.use_cm_cutoff && !cutoffs.isEmpty) = false := by
      cases hbv : (cfg.use_cm_cutoff && !cutoffs.isEmpty)
      · rfl
      · exact absurd hbv hb
    simp only [groupContrib, hb', Bool.false_eq_true, if_false]
    by_cases huev : cfg.use_evalue_cutoff = true
    · simp only [evalueGroupSets, huev, if_true, Except.ok.injEq, Prod.mk.injEq]
      refine ⟨?_, ?_, ?_⟩ <;>
        · congr 1
          refine List.filter_congr fun h hm => ?_
          simp [plusCond, minusCond, sigCond, hb', huev]
    · have huev' : cfg.use_evalue_cutoff = false := by
        cases hu : cfg.use_evalue_cutoff
        · rfl
        · exact absurd hu huev
      simp only [evalueGroupSets, huev', Bool.false_eq_true, if_false, Except.ok.injEq,
        Prod.mk.injEq]
      refine ⟨?_, ?_, ?_⟩ <;>
        · rw [eq_comm]
          apply seqIds_filter_false
          intro h hm
          simp [plusCond, minusCond, sigCond, hb', huev']

theorem mem_unionOver {f : String → Finset String} {ns : List String} {x : String} :
    x ∈ unionOver f ns ↔ ∃ n ∈ ns, x ∈ f n := by
  induction ns with
  | nil => simp [unionOver]
  | cons n ns ih => simp [unionOver, ih]

theorem mem_groupOf {hits : List Hit} {n : String} {h : Hit} :
    h ∈ groupOf hits n ↔ h ∈ hits ∧ h.ribozyme = n := by
  simp [groupOf]

theorem processGroups_names (hits : List Hit) (cutoffs : CmTable) (cfg : Config)
    (ns : List String) (acc : Finset String × Finset String × Finset String)
    (hl : ∀ n ∈ ns, cfg.use_cm_cutoff = true → cutoffs ≠ [] →
      (lookupCutoff cutoffs n).isSome) :
    processGroups cutoffs cfg (ns.map fun n => (n, groupOf hits n)) acc =
      Except.ok
        (acc.1 ∪ unionOver (fun n => seqIds ((groupOf hits n).filter (plusCond cutoffs cfg))) ns,
         acc.2.1 ∪ unionOver (fun n => seqIds ((groupOf hits n).filter (minusCond cutoffs cfg))) ns,
         acc.2.2 ∪ unionOver (fun n => seqIds ((groupOf hits n).filter (sigCond cutoffs cfg))) ns) := by
  induction ns generalizing acc with
  | nil => simp [processGroups, unionOver]
  | cons n ns ih =>
    have hall : ∀ h ∈ groupOf hits n, h.ribozyme = n := fun h hm =>
      (mem_groupOf.mp hm).2
    rw [List.map_cons]
    simp only [processGroups,
      groupContrib_eq cutoffs cfg n _ hall (hl n (List.mem_cons_self _ _))]
    rw [ih _ fun m hm => hl m (List.mem_cons_of_mem _ hm)]
    simp [unionOver, Finset.union_assoc]

theorem unionOver_groups (hits : List Hit) (f : Hit → Bool) :
    unionOver (fun n => seqIds ((groupOf hits n).filter f)) (ribozymeNames hits) =
      seqIds (hits.filter f) := by
  ext x
  simp only [mem_unionOver, mem_seqIds, List.mem_filter, ribozymeNames,
    List.mem_dedup, List.mem_map, groupOf, decide_eq_true_eq]
  constructor
  · rintro ⟨n, -, h, ⟨⟨hm, -⟩, hf⟩, hx⟩
    exact ⟨h, ⟨hm, hf⟩, hx⟩
  · rintro ⟨h, ⟨hm, hf⟩, hx⟩
    exact ⟨h.ribozyme, ⟨h, hm, rfl⟩, h, ⟨⟨hm, rfl⟩, hf⟩, hx⟩

theorem evidenceSets_ok (hits : List Hit) (cutoffs : CmTable) (cfg : Config)
    (hnm : NoMissingCutoff hits cutoffs cfg) :
    evidenceSets hits cutoffs cfg =
      Except.ok (plusSet hits cutoffs cfg, minusSet hits cutoffs cfg,
        sigSet hits cutoffs cfg) := by
  have hl : ∀ n ∈ ribozymeNames hits, cfg.use_cm_cutoff = true → cutoffs ≠ [] →
      (lookupCutoff cutoffs n).isSome := by
    intro n hn hcm hne
    simp only [ribozymeNames, List.mem_dedup, List.mem_map] at hn
    obtain ⟨h, hm, rfl⟩ := hn
    exact hnm hcm hne h hm
  rw [evidenceSets, groups, processGroups_names hits cutoffs cfg _ _ hl]
  rw [plusSet, minusSet, sigSet, ← unionOver_groups hits (plusCond cutoffs cfg),
    ← unionOver_groups hits (minusCond cutoffs cfg),
    ← unionOver_groups hits (sigCond cutoffs cfg)]
  simp

theorem groupContrib_error (cutoffs : CmTable) (cfg : Config) (n : String)
    (rz_df : List Hit) (hcm : cfg.use_cm_cutoff = true) (hne : cutoffs ≠ [])
    (hmiss : lookupCutoff cutoffs n = none) :
    groupContrib cutoffs cfg n rz_df = Except.error () := by
  have hb : (cfg.use_cm_cutoff && !cutoffs.isEmpty) = true := by
    simp [hcm, isEmpty_eq_false_of_ne_nil hne]
  simp [groupContrib, hb, hmiss]

theorem processGroups_error (cutoffs : CmTable) (cfg : Config)
    (gs : List (String × List Hit)) (acc : Finset String × Finset String × Finset String)
    (hm : ∃ g ∈ gs, groupContrib cutoffs cfg g.1 g.2 = Except.error ()) :
    processGroups cutoffs cfg gs acc = Except.error () := by
  induction gs generalizing acc with
  | nil => simp at hm
  | cons g gs ih =>
    rcases hm with ⟨g', hg', herr⟩
    rcases List.mem_cons.mp hg' with rfl | hmem
    · simp only [processGroups, herr]
    · simp only [processGroups]
      cases hc : groupContrib cutoffs cfg g.1 g.2 with
      | error e => cases e; rfl
      | ok u => exact ih _ ⟨g', hmem, herr⟩

theorem evidenceSets_error (hits : List Hit) (cutoffs : CmTable) (cfg : Config)
    (hcm : cfg.use_cm_cutoff = true) (hne : cutoffs ≠ [])
    (hmiss : ∃ h ∈ hits, lookupCutoff cutoffs h.ribozyme = none) :
    evidenceSets hits cutoffs cfg = Except.error () := by
  obtain ⟨h, hm, hl⟩ := hmiss
  apply processGroups_error
  refine ⟨(h.ribozyme, groupOf hits h.ribozyme), ?_, ?_⟩
  · simp only [groups, List.mem_map, ribozymeNames, List.mem_dedup]
    exact ⟨h.ribozyme, ⟨h, hm, rfl⟩, rfl⟩
  · exact groupContrib_error _ _ _ _ hcm hne hl

theorem noMissing_of_ok {hits : List Hit} {cutoffs : CmTable} {cfg : Config}
    {t : Finset String × Finset String × Finset String}
    (he : evidenceSets hits cutoffs cfg = Except.ok t) :
    NoMissingCutoff hits cutoffs cfg := by
  intro hcm hne h hm
  by_contra hnone
  have hn : lookupCutoff cutoffs h.ribozyme = none :=
    Option.not_isSome_iff_eq_none.mp hnone
  rw [evidenceSets_error hits cutoffs cfg hcm hne ⟨h, hm, hn⟩] at he
  exact Except.noConfusion he

theorem evidenceSets_ok_inv {hits : List Hit} {cutoffs : CmTable} {cfg : Config}
    {P M S : Finset String}
    (he : evidenceSets hits cutoffs cfg = Except.ok (P, M, S)) :
    P = plusSet hits cutoffs cfg ∧ M = minusSet hits cutoffs cfg ∧
      S = sigSet hits cutoffs cfg := by
  have h2 := evidenceSets_ok hits cutoffs cfg (noMissing_of_ok he)
  rw [he] at h2
  simp only [Except.ok.injEq, Prod.mk.injEq] at h2
  exact ⟨h2.1, h2.2.1, h2.2.2⟩

theorem mem_plusSet {hits : List Hit} {cutoffs : CmTable} {cfg : Config} {x : String} :
    x ∈ plusSet hits cutoffs cfg ↔
      ∃ h ∈ hits, h.seq_id = x ∧ plusCond cutoffs cfg h = true := by
  simp only [plusSet, mem_seqIds, List.mem_filter]
  constructor
  · rintro ⟨h, ⟨hm, hc⟩, hx⟩
    exact ⟨h, hm, hx, hc⟩
  · rintro ⟨h, hm, hx, hc⟩
    exact ⟨h, ⟨hm, hc⟩, hx⟩

theorem mem_minusSet {hits : List Hit} {cutoffs : CmTable} {cfg : Config} {x : String} :
    x ∈ minusSet hits cutoffs cfg ↔
      ∃ h ∈ hits, h.seq_id = x ∧ minusCond cutoffs cfg h = true := by
  simp only [minusSet, mem_seqIds, List.mem_filter]
  constructor
  · rintro ⟨h, ⟨hm, hc⟩, hx⟩
    exact ⟨h, hm, hx, hc⟩
  · rintro ⟨h, hm, hx, hc⟩
    exact ⟨h, ⟨hm, hc⟩, hx⟩

theorem mem_sigSet {hits : List Hit} {cutoffs : CmTable} {cfg : Config} {x : String} :
    x ∈ sigSet hits cutoffs cfg ↔
      ∃ h ∈ hits, h.seq_id = x ∧ sigCond cutoffs cfg h = true := by
  simp only [sigSet, mem_seqIds, List.mem_filter]
  constructor
  · rintro ⟨h, ⟨hm, hc⟩, hx⟩
    exact ⟨h, hm, hx, hc⟩
  · rintro ⟨h, hm, hx, hc⟩
    exact ⟨h, ⟨hm, hc⟩, hx⟩

/-- The decidable predicate `ltSqrt` agrees with the real-number statement
`e < √m` of the source (`evalue < max_evalue ** 0.5`) whenever `m > 0`. -/
theorem ltSqrt_iff_lt_sqrt (e m : ℚ) (hm : 0 < m) :
    ltSqrt e m = true ↔ (e : ℝ) < Real.sqrt (m : ℝ) := by
  have hed : (0 : ℝ) < (e.den : ℝ) := by exact_mod_cast e.den_pos
  have hmd : (0 : ℝ) < (m.den : ℝ) := by exact_mod_cast m.den_pos
  have heq : (e : ℝ) = (e.num : ℝ) / (e.den : ℝ) := Rat.cast_def e
  have hmq : (m : ℝ) = (m.num : ℝ) / (m.den : ℝ) := Rat.cast_def m
  have hmr : (0 : ℝ) < (m : ℝ) := by exact_mod_cast hm
  have key : (e.num * e.num * (m.den : ℤ) < m.num * ((e.den : ℤ) * (e.den : ℤ))) ↔
      (e : ℝ) ^ 2 < (m : ℝ) := by
    rw [heq, hmq, div_pow, div_lt_div_iff₀ (by positivity) hmd]
    constructor
    · intro h
      have h' : ((e.num * e.num * (m.den : ℤ) : ℤ) : ℝ) <
          ((m.num * ((e.den : ℤ) * (e.den : ℤ)) : ℤ) : ℝ) := by exact_mod_cast h
      push_cast at h'
      nlinarith [h']
    · intro h
      have h' : ((e.num * e.num * (m.den : ℤ) : ℤ) : ℝ) <
          ((m.num * ((e.den : ℤ) * (e.den : ℤ)) : ℤ) : ℝ) := by
        push_cast
        nlinarith [h]
      exact_mod_cast h'
  rw [ltSqrt, Bool.or_eq_true, decide_eq_true_iff, decide_eq_true_iff, key]
  constructor
  · rintro (he | hsq)
    · have : (e : ℝ) < 0 := by exact_mod_cast he
      exact lt_of_lt_of_le this (Real.sqrt_nonneg _)
    · rcases lt_or_le (e : ℝ) 0 with he | he
      · exact lt_of_lt_of_le he (Real.sqrt_nonneg _)
      · exact (Real.lt_sqrt he).mpr hsq
  · intro h
    rcases lt_or_le e 0 with he | he
    · exact Or.inl he
    · right
      have h0 : (0 : ℝ) ≤ (e : ℝ) := by exact_mod_cast he
      exact (Real.lt_sqrt h0).mp h

/-- The set `ribozy_likes_ids` is also the plain union of the
dual-polarity set and the significant set. -/
theorem ribozy_likes_ids_eq_union (P M S : Finset String) :
    ribozy_likes_ids P M S = double_rz_ids P M ∪ S := by
  rw [ribozy_likes_ids, single_rz_ids]
  exact Finset.union_sdiff_self_eq_union

/-- C5: in every run the derived sets satisfy
`dual_polarity = plus ∩ minus`, `single_polarity = significant − dual`,
`viroid_like = dual ∪ single`, and consequently
`single_polarity ∩ dual_polarity = ∅`. -/
theorem claim_C5_set_algebra (P M S : Finset String) :
    double_rz_ids P M = P ∩ M ∧
    single_rz_ids P M S = S \ double_rz_ids P M ∧
    ribozy_likes_ids P M S = double_rz_ids P M ∪ single_rz_ids P M S ∧
    single_rz_ids P M S ∩ double_rz_ids P M = ∅ := by
  refine ⟨rfl, rfl, rfl, ?_⟩
  rw [single_rz_ids]
  exact Finset.sdiff_inter_self _ _

/-- C3: for a group whose profile has a cutoff entry, with
`use_cutoff_filter` on and `c` the selected cutoff: a hit of that profile
is added to `plus_strand_hits` when its strand is `+` and `score > c`, to
`minus_strand_hits` when its strand is `-` and `score > c`, and to
`significant_hits` when `score > c` regardless of strand. -/
theorem claim_C3_cutoff_tests (hits : List Hit) (cutoffs : CmTable) (cfg : Config)
    (P M S : Finset String) (h : Hit) (cut : CmCutoff)
    (hcm : cfg.use_cm_cutoff = true)
    (hlk : lookupCutoff cutoffs h.ribozyme = some cut)
    (he : evidenceSets hits cutoffs cfg = Except.ok (P, M, S))
    (hmem : h ∈ hits) :
    (h.strand = Strand.plus → cut.get cfg.cm_cutoff_type < h.score → h.seq_id ∈ P) ∧
    (h.strand = Strand.minus → cut.get cfg.cm_cutoff_type < h.score → h.seq_id ∈ M) ∧
    (cut.get cfg.cm_cutoff_type < h.score → h.seq_id ∈ S) := by
  obtain ⟨hP, hM, hS⟩ := evidenceSets_ok_inv he
  subst hP
  subst hM
  subst hS
  have hne : cutoffs ≠ [] := lookupCutoff_ne_nil hlk
  have hpass : cut.get cfg.cm_cutoff_type < h.score →
      cutoffScorePass cutoffs cfg h = true := by
    intro hsc
    simp [cutoffScorePass, hlk, hsc]
  refine ⟨?_, ?_, ?_⟩
  · intro hs hsc
    exact mem_plusSet.mpr ⟨h, hmem, rfl, by
      simp [plusCond, hcm, isEmpty_eq_false_of_ne_nil hne, hs, hpass hsc]⟩
  · intro hs hsc
    exact mem_minusSet.mpr ⟨h, hmem, rfl, by
      simp [minusCond, hcm, isEmpty_eq_false_of_ne_nil hne, hs, hpass hsc]⟩
  · intro hsc
    exact mem_sigSet.mpr ⟨h, hmem, rfl, by
      simp [sigCond, hcm, isEmpty_eq_false_of_ne_nil hne, hpass hsc]⟩

/-- Concrete instance of C3 (Scenario A): both hits of `Twister-P5` with
score 50 pass the `GA = 45` cutoff, landing in the respective strand sets
and in the significant set. -/
theorem claim_C3_witness :
    exHitPlus.seq_id ∈ ({"s1"} : Finset String) ∧
    exHitMinus.seq_id ∈ ({"s2"} : Finset String) ∧
    exHitPlus.seq_id ∈ ({"s1", "s2"} : Finset String) :=
  ⟨(claim_C3_cutoff_tests [exHitPlus, exHitMinus] exTable exCfgCut
      {"s1"} {"s2"} {"s1", "s2"} exHitPlus ⟨45, 46, 30⟩
      rfl (by decide) (by decide) (by decide)).1 rfl (by decide),
   (claim_C3_cutoff_tests [exHitPlus, exHitMinus] exTable exCfgCut
      {"s1"} {"s2"} {"s1", "s2"} exHitMinus ⟨45, 46, 30⟩
      rfl (by decide) (by decide) (by decide)).2.1 rfl (by decide),
   (claim_C3_cutoff_tests [exHitPlus, exHitMinus] exTable exCfgCut
      {"s1"} {"s2"} {"s1", "s2"} exHitPlus ⟨45, 46, 30⟩
      rfl (by decide) (by decide) (by decide)).2.2 (by decide)⟩

/-- C4: with the e-value filter on, a hit is added to the strand-evidence
set matching its strand when `evalue < sqrt max_evalue` (the loose
threshold) and to `significant_hits` when `evalue < max_evalue` (the
strict one); a hit whose e-value lies between `max_evalue` and
`sqrt max_evalue` enters only the strand-evidence set and contributes
nothing to `significant_hits` (so its sequence is not significant unless
some other test makes it so). -/
theorem claim_C4_evalue_tests (hits : List Hit) (cutoffs : CmTable) (cfg : Config)
    (P M S : Finset String) (h : Hit)
    (huse : cfg.use_evalue_cutoff = true)
    (hpos : 0 < cfg.max_evalue)
    (he : evidenceSets hits cutoffs cfg = Except.ok (P, M, S))
    (hmem : h ∈ hits) :
    (h.strand = Strand.plus →
      (h.evalue : ℝ) < Real.sqrt (cfg.max_evalue : ℝ) → h.seq_id ∈ P) ∧
    (h.strand = Strand.minus →
      (h.evalue : ℝ) < Real.sqrt (cfg.max_evalue : ℝ) → h.seq_id ∈ M) ∧
    (h.evalue < cfg.max_evalue → h.seq_id ∈ S) ∧
    (cfg.use_cm_cutoff = false →
      (∀ h2 ∈ hits, h2.seq_id = h.seq_id → cfg.max_evalue ≤ h2.evalue) →
      h.seq_id ∉ S) := by
  obtain ⟨hP, hM, hS⟩ := evidenceSets_ok_inv he
  subst hP
  subst hM
  subst hS
  refine ⟨?_, ?_, ?_, ?_⟩
  · intro hs hsq
    have hlt : ltSqrt h.evalue cfg.max_evalue = true :=
      (ltSqrt_iff_lt_sqrt _ _ hpos).mpr hsq
    exact mem_plusSet.mpr ⟨h, hmem, rfl, by simp [plusCond, huse, hs, hlt]⟩
  · intro hs hsq
    have hlt : ltSqrt h.evalue cfg.max_evalue = true :=
      (ltSqrt_iff_lt_sqrt _ _ hpos).mpr hsq
    exact mem_minusSet.mpr ⟨h, hmem, rfl, by simp [minusCond, huse, hs, hlt]⟩
  · intro hev
    exact mem_sigSet.mpr ⟨h, hmem, rfl, by simp [sigCond, huse, hev]⟩
  · intro hcm hall hS
    obtain ⟨h2, hm2, hxeq, hcond⟩ := mem_sigSet.mp hS
    rw [sigCond, hcm] at hcond
    simp only [Bool.false_and, Bool.false_or, Bool.and_eq_true,
      decide_eq_true_eq] at hcond
    exact absurd hcond.2 (not_lt.mpr (hall h2 hm2 hxeq))

/-- Concrete instance of C4 (Scenario B, `max_evalue = 0.01`): the hit with
e-value `0.001` is significant; the hit with e-value `0.05` (above `0.01`
but below `√0.01 = 0.1`) lands in the plus-strand set but not in the
significant set. -/
theorem claim_C4_witness :
    exHitE1.seq_id ∈ ({"s3", "s4"} : Finset String) ∧
    exHitE2.seq_id ∈ ({"s3", "s4"} : Finset String) ∧
    exHitE1.seq_id ∈ ({"s3"} : Finset String) ∧
    exHitE2.seq_id ∉ ({"s3"} : Finset String) :=
  ⟨(claim_C4_evalue_tests [exHitE1, exHitE2] [] exCfgEv
      {"s3", "s4"} ∅ {"s3"} exHitE1 rfl (by decide) (by decide) (by decide)).1
      rfl ((ltSqrt_iff_lt_sqrt exHitE1.evalue exCfgEv.max_evalue (by decide)).mp
        (by decide)),
   (claim_C4_evalue_tests [exHitE1, exHitE2] [] exCfgEv
      {"s3", "s4"} ∅ {"s3"} exHitE2 rfl (by decide) (by decide) (by decide)).1
      rfl ((ltSqrt_iff_lt_sqrt exHitE2.evalue exCfgEv.max_evalue (by decide)).mp
        (by decide)),
   (claim_C4_evalue_tests [exHitE1, exHitE2] [] exCfgEv
      {"s3", "s4"} ∅ {"s3"} exHitE1 rfl (by decide) (by decide) (by decide)).2.2.1
      (by decide),
   (claim_C4_evalue_tests [exHitE1, exHitE2] [] exCfgEv
      {"s3", "s4"} ∅ {"s3"} exHitE2 rfl (by decide) (by decide) (by decide)).2.2.2
      rfl (by decide)⟩

/-- Fact `hits.isEmpty = false` for a non-empty list. -/
theorem isEmpty_hits_false {hits : List Hit} (h : hits ≠ []) :
    hits.isEmpty = false := by
  cases hits with
  | nil => exact absurd rfl h
  | cons a t => rfl

/-- When no cutoff lookup fails and there is at least one hit, the
classifier reduces to the final emptiness test on the viroid-like ids. -/
theorem ribozyme_filter_reduce (hits : List Hit) (cutoffs : CmTable) (cfg : Config)
    (hnm : NoMissingCutoff hits cutoffs cfg) (hne : hits ≠ []) :
    ribozyme_filter hits cutoffs cfg =
      if viroidLikeIds hits cutoffs cfg = ∅ then Except.ok none
      else Except.ok (some (buildResult hits (plusSet hits cutoffs cfg)
        (minusSet hits cutoffs cfg) (sigSet hits cutoffs cfg))) := by
  have hev := evidenceSets_ok hits cutoffs cfg hnm
  simp only [ribozyme_filter, isEmpty_hits_false hne, Bool.false_eq_true, if_false,
    hev, viroidLikeIds]

/-- C9: with the cutoff branch disabled (flag off or empty table) and the
e-value filter off, the evidence sets stay empty and the classifier
returns `None` for every non-empty hit collection. -/
theorem claim_C9_no_filters (hits : List Hit) (cutoffs : CmTable) (cfg : Config)
    (hne : hits ≠ [])
    (hcm : cfg.use_cm_cutoff = false ∨ cutoffs = [])
    (huse : cfg.use_evalue_cutoff = false) :
    evidenceSets hits cutoffs cfg = Except.ok (∅, ∅, ∅) ∧
    ribozyme_filter hits cutoffs cfg = Except.ok none := by
  have hb : (cfg.use_cm_cutoff && !cutoffs.isEmpty) = false := by
    rcases hcm with h | h
    · simp [h]
    · simp [h]
  have hnm : NoMissingCutoff hits cutoffs cfg := by
    intro hcmt hnet h hm
    rcases hcm with h' | h'
    · rw [h'] at hcmt
      exact absurd hcmt (by simp)
    · exact absurd h' hnet
  have hPe : plusSet hits cutoffs cfg = ∅ :=
    seqIds_filter_false _ _ fun p hp => by simp [plusCond, hb, huse]
  have hMe : minusSet hits cutoffs cfg = ∅ :=
    seqIds_filter_false _ _ fun p hp => by simp [minusCond, hb, huse]
  have hSe : sigSet hits cutoffs cfg = ∅ :=
    seqIds_filter_false _ _ fun p hp => by simp [sigCond, hb, huse]
  have hev := evidenceSets_ok hits cutoffs cfg hnm
  refine ⟨by rw [hev, hPe, hMe, hSe], ?_⟩
  rw [ribozyme_filter_reduce hits cutoffs cfg hnm hne, if_pos]
  rw [viroidLikeIds, hPe, hMe, hSe]
  simp [ribozy_likes_ids, double_rz_ids, single_rz_ids]

/-- Concrete instance of C9: one strong hit, but with no filter enabled the
classifier finds nothing and returns `None`. -/
theorem claim_C9_witness :
    evidenceSets [exHitPlus] exTable exCfgOff = Except.ok (∅, ∅, ∅) ∧
    ribozyme_filter [exHitPlus] exTable exCfgOff = Except.ok none :=
  claim_C9_no_filters [exHitPlus] exTable exCfgOff (by decide) (Or.inl rfl) rfl

/-- C1 fails on the code: with a non-empty cutoff table and
`use_cutoff_filter` on, a hit whose profile is missing from the table
aborts the whole run (`KeyError`), even though the e-value filter is
enabled — the missing lookup IS fatal. -/
theorem claim_C1_counterexample :
    ribozyme_filter [exHitMissing] exTable exCfgBoth = Except.error () := by decide

/-- C1 (amended): when `use_cutoff_filter` is true and the cutoff table is
non-empty, a profile in the hits without a cutoff entry is fatal: the
classifier aborts with a lookup error instead of skipping that group. -/
theorem claim_C1_missing_cutoff_fatal (hits : List Hit) (cutoffs : CmTable)
    (cfg : Config) (hcm : cfg.use_cm_cutoff = true) (hne : cutoffs ≠ [])
    (hmiss : ∃ h ∈ hits, lookupCutoff cutoffs h.ribozyme = none) :
    ribozyme_filter hits cutoffs cfg = Except.error () := by
  have herr := evidenceSets_error hits cutoffs cfg hcm hne hmiss
  obtain ⟨h, hm, -⟩ := hmiss
  have hie : hits.isEmpty = false := by
    cases hits with
    | nil => simp at hm
    | cons a t => rfl
  simp only [ribozyme_filter, hie, Bool.false_eq_true, if_false, herr]

/-- Concrete instance of the amended C1: the `Pistol` hit has no cutoff
entry, so the run aborts (here with the e-value filter disabled). -/
theorem claim_C1_witness :
    ribozyme_filter [exHitMissing] exTable exCfgCut = Except.error () :=
  claim_C1_missing_cutoff_fatal [exHitMissing] exTable exCfgCut rfl
    (by decide) ⟨exHitMissing, by decide, by decide⟩

/-- C2 fails on the code: on a non-empty hit collection the classifier can
also abort with a lookup error, returning neither `None` nor a
`ClassificationResult`. -/
theorem claim_C2_counterexample :
    ([exHitMissing2] : List Hit) ≠ [] ∧
    ribozyme_filter [exHitMissing2] exTable exCfgBoth = Except.error () :=
  ⟨by decide, by decide⟩

/-- C2 (amended): provided no cutoff lookup fails (no missing profile while
the cutoff branch is active), the classifier returns `None` exactly when
the input is empty or the derived viroid-like set is empty, and returns a
`ClassificationResult` in every other case. -/
theorem claim_C2_none_iff (hits : List Hit) (cutoffs : CmTable) (cfg : Config)
    (hnm : NoMissingCutoff hits cutoffs cfg) :
    (ribozyme_filter hits cutoffs cfg = Except.ok none ↔
      hits = [] ∨ viroidLikeIds hits cutoffs cfg = ∅) ∧
    (hits ≠ [] → viroidLikeIds hits cutoffs cfg ≠ ∅ →
      ∃ r, ribozyme_filter hits cutoffs cfg = Except.ok (some r)) := by
  by_cases hemp : hits = []
  · subst hemp
    exact ⟨by simp [ribozyme_filter], fun h => absurd rfl h⟩
  · rw [ribozyme_filter_reduce hits cutoffs cfg hnm hemp]
    by_cases hlik : viroidLikeIds hits cutoffs cfg = ∅
    · rw [if_pos hlik]
      exact ⟨by simp [hlik], fun _ h => absurd hlik h⟩
    · rw [if_neg hlik]
      refine ⟨?_, fun _ _ => ⟨_, rfl⟩⟩
      simp [hemp, hlik]

/-- Concrete instance of the amended C2 at a run that returns a result. -/
theorem claim_C2_witness :
    (ribozyme_filter [exHitPlus, exHitMinus] exTable exCfgCut = Except.ok none ↔
      ([exHitPlus, exHitMinus] : List Hit) = [] ∨
        viroidLikeIds [exHitPlus, exHitMinus] exTable exCfgCut = ∅) ∧
    (([exHitPlus, exHitMinus] : List Hit) ≠ [] →
      viroidLikeIds [exHitPlus, exHitMinus] exTable exCfgCut ≠ ∅ →
      ∃ r, ribozyme_filter [exHitPlus, exHitMinus] exTable exCfgCut =
        Except.ok (some r)) :=
  claim_C2_none_iff [exHitPlus, exHitMinus] exTable exCfgCut (by decide)

/-- C6: with everything else fixed, enlarging `max_evalue` from `m1` to
`m2` (both positive) can only enlarge `significant_hits` and
`viroid_like`. -/
theorem claim_C6_evalue_monotone (hits : List Hit) (cutoffs : CmTable)
    (ucm : Bool) (k : CmCutoffType) (uev : Bool) (m1 m2 : ℚ)
    (hm1 : 0 < m1) (hm2 : 0 < m2) (h12 : m1 ≤ m2)
    (P1 M1 S1 P2 M2 S2 : Finset String)
    (e1 : evidenceSets hits cutoffs ⟨ucm, k, uev, m1⟩ = Except.ok (P1, M1, S1))
    (e2 : evidenceSets hits cutoffs ⟨ucm, k, uev, m2⟩ = Except.ok (P2, M2, S2)) :
    S1 ⊆ S2 ∧ ribozy_likes_ids P1 M1 S1 ⊆ ribozy_likes_ids P2 M2 S2 := by
  obtain ⟨hP1, hM1, hS1⟩ := evidenceSets_ok_inv e1
  obtain ⟨hP2, hM2, hS2⟩ := evidenceSets_ok_inv e2
  subst hP1
  subst hM1
  subst hS1
  subst hP2
  subst hM2
  subst hS2
  have hlt : ∀ e : ℚ, ltSqrt e m1 = true → ltSqrt e m2 = true := by
    intro e h
    rw [ltSqrt_iff_lt_sqrt e m1 hm1] at h
    rw [ltSqrt_iff_lt_sqrt e m2 hm2]
    refine lt_of_lt_of_le h (Real.sqrt_le_sqrt ?_)
    exact_mod_cast h12
  have hplus : plusSet hits cutoffs ⟨ucm, k, uev, m1⟩ ⊆
      plusSet hits cutoffs ⟨ucm, k, uev, m2⟩ := by
    intro x hx
    obtain ⟨h, hm, hxe, hc⟩ := mem_plusSet.mp hx
    refine mem_plusSet.mpr ⟨h, hm, hxe, ?_⟩
    rcases (Bool.or_eq_true _ _).mp hc with h1 | h2
    · exact (Bool.or_eq_true _ _).mpr (Or.inl h1)
    · obtain ⟨hu, h3⟩ := (Bool.and_eq_true _ _).mp h2
      obtain ⟨hsd, hlt1⟩ := (Bool.and_eq_true _ _).mp h3
      exact (Bool.or_eq_true _ _).mpr (Or.inr ((Bool.and_eq_true _ _).mpr
        ⟨hu, (Bool.and_eq_true _ _).mpr ⟨hsd, hlt h.evalue hlt1⟩⟩))
  have hminus : minusSet hits cutoffs ⟨ucm, k, uev, m1⟩ ⊆
      minusSet hits cutoffs ⟨ucm, k, uev, m2⟩ := by
    intro x hx
    obtain ⟨h, hm, hxe, hc⟩ := mem_minusSet.mp hx
    refine mem_minusSet.mpr ⟨h, hm, hxe, ?_⟩
    rcases (Bool.or_eq_true _ _).mp hc with h1 | h2
    · exact (Bool.or_eq_true _ _).mpr (Or.inl h1)
    · obtain ⟨hu, h3⟩ := (Bool.and_eq_true _ _).mp h2
      obtain ⟨hsd, hlt1⟩ := (Bool.and_eq_true _ _).mp h3
      exact (Bool.or_eq_true _ _).mpr (Or.inr ((Bool.and_eq_true _ _).mpr
        ⟨hu, (Bool.and_eq_true _ _).mpr ⟨hsd, hlt h.evalue hlt1⟩⟩))
  have hsig : sigSet hits cutoffs ⟨ucm, k, uev, m1⟩ ⊆
      sigSet hits cutoffs ⟨ucm, k, uev, m2⟩ := by
    intro x hx
    obtain ⟨h, hm, hxe, hc⟩ := mem_sigSet.mp hx
    refine mem_sigSet.mpr ⟨h, hm, hxe, ?_⟩
    rcases (Bool.or_eq_true _ _).mp hc with h1 | h2
    · exact (Bool.or_eq_true _ _).mpr (Or.inl h1)
    · obtain ⟨hu, h3⟩ := (Bool.and_eq_true _ _).mp h2
      have h4 : h.evalue < m2 := lt_of_lt_of_le (of_decide_eq_true h3) h12
      exact (Bool.or_eq_true _ _).mpr (Or.inr ((Bool.and_eq_true _ _).mpr
        ⟨hu, decide_eq_true h4⟩))
  refine ⟨hsig, ?_⟩
  rw [ribozy_likes_ids_eq_union, ribozy_likes_ids_eq_union]
  exact Finset.union_subset_union (Finset.inter_subset_inter hplus hminus) hsig

/-- Concrete instance of C6: raising `max_evalue` from `0.01` to `0.25`
turns the significant set `{s3}` into `{s3, s4}` — a superset. -/
theorem claim_C6_witness :
    ({"s3"} : Finset String) ⊆ {"s3", "s4"} ∧
    ribozy_likes_ids {"s3", "s4"} ∅ {"s3"} ⊆
      ribozy_likes_ids {"s3", "s4"} ∅ {"s3", "s4"} :=
  claim_C6_evalue_monotone [exHitE1, exHitE2] [] false CmCutoffType.GA true
    (mkRat 1 100) (mkRat 1 4) (by decide) (by decide) (by decide)
    {"s3", "s4"} ∅ {"s3"} {"s3", "s4"} ∅ {"s3", "s4"} (by decide) (by decide)

/-- The loop over an all-ok list of groups returns the componentwise union
of the per-group contributions. -/
theorem processGroups_ok_foldr (cutoffs : CmTable) (cfg : Config)
    (gs : List (String × List Hit))
    (u : String × List Hit → Finset String × Finset String × Finset String)
    (hok : ∀ g ∈ gs, groupContrib cutoffs cfg g.1 g.2 = Except.ok (u g))
    (acc : Finset String × Finset String × Finset String) :
    processGroups cutoffs cfg gs acc =
      Except.ok (acc.1 ∪ gs.foldr (fun g t => (u g).1 ∪ t) ∅,
                 acc.2.1 ∪ gs.foldr (fun g t => (u g).2.1 ∪ t) ∅,
                 acc.2.2 ∪ gs.foldr (fun g t => (u g).2.2 ∪ t) ∅) := by
  induction gs generalizing acc with
  | nil => simp [processGroups]
  | cons g gs ih =>
    simp only [processGroups, hok g (List.mem_cons_self _ _)]
    rw [ih fun g' hg' => hok g' (List.mem_cons_of_mem _ hg')]
    simp [Finset.union_assoc]

theorem mem_foldr_union {β : Type} (f : β → Finset String) (gs : List β) (x : String) :
    x ∈ gs.foldr (fun g t => f g ∪ t) ∅ ↔ ∃ g ∈ gs, x ∈ f g := by
  induction gs with
  | nil => simp
  | cons g gs ih => simp [ih]

/-- C8: the evidence sets do not depend on the order in which the profile
groups are processed, and equal the union of the per-group partial sets:
running the loop on any permutation of the groups gives the same outcome,
which on success is the componentwise union of the per-group
contributions. -/
theorem claim_C8_order_independent (hits : List Hit) (cutoffs : CmTable)
    (cfg : Config) (gs : List (String × List Hit))
    (hperm : (groups hits).Perm gs)
    (u : String × List Hit → Finset String × Finset String × Finset String)
    (hok : ∀ g ∈ groups hits, groupContrib cutoffs cfg g.1 g.2 = Except.ok (u g)) :
    processGroups cutoffs cfg gs (∅, ∅, ∅) = evidenceSets hits cutoffs cfg ∧
    evidenceSets hits cutoffs cfg =
      Except.ok ((groups hits).foldr (fun g t => (u g).1 ∪ t) ∅,
                 (groups hits).foldr (fun g t => (u g).2.1 ∪ t) ∅,
                 (groups hits).foldr (fun g t => (u g).2.2 ∪ t) ∅) := by
  have hok' : ∀ g ∈ gs, groupContrib cutoffs cfg g.1 g.2 = Except.ok (u g) :=
    fun g hg => hok g (hperm.mem_iff.mpr hg)
  have h1 := processGroups_ok_foldr cutoffs cfg gs u hok' (∅, ∅, ∅)
  have h2 := processGroups_ok_foldr cutoffs cfg (groups hits) u hok (∅, ∅, ∅)
  have hsets : ∀ f : String × List Hit → Finset String,
      gs.foldr (fun g t => f g ∪ t) ∅ = (groups hits).foldr (fun g t => f g ∪ t) ∅ := by
    intro f
    ext x
    rw [mem_foldr_union, mem_foldr_union]
    constructor
    · rintro ⟨g, hg, hx⟩
      exact ⟨g, hperm.mem_iff.mpr hg, hx⟩
    · rintro ⟨g, hg, hx⟩
      exact ⟨g, hperm.mem_iff.mp hg, hx⟩
  constructor
  · rw [evidenceSets, h1, h2, hsets fun g => (u g).1, hsets fun g => (u g).2.1,
      hsets fun g => (u g).2.2]
  · rw [evidenceSets, h2]
    simp

/-- Concrete instance of C8: processing the two profile groups of
`exHits8` in reversed order gives the same evidence sets, which equal the
union of the two per-group partial results. -/
theorem claim_C8_witness :
    processGroups [] exCfgEv exGroups8 (∅, ∅, ∅) = evidenceSets exHits8 [] exCfgEv ∧
    evidenceSets exHits8 [] exCfgEv =
      Except.ok ((groups exHits8).foldr (fun g t => (exContrib8 g).1 ∪ t) ∅,
                 (groups exHits8).foldr (fun g t => (exContrib8 g).2.1 ∪ t) ∅,
                 (groups exHits8).foldr (fun g t => (exContrib8 g).2.2 ∪ t) ∅) :=
  claim_C8_order_independent exHits8 [] exCfgEv exGroups8 (by decide) exContrib8
    (by decide)

theorem startsWith_first {l p : String} {c : Char} {cs : List Char}
    (hp : p.data = c :: cs) (h : strStartsWith l p = true) :
    ∃ ds, l.data = c :: ds := by
  rw [strStartsWith, decide_eq_true_iff, hp] at h
  cases hd : l.data with
  | nil =>
    rw [hd] at h
    simp at h
  | cons a as =>
    rw [hd, List.length_cons, List.take_succ_cons] at h
    exact ⟨as, by rw [(List.cons.injEq _ _ _ _ |>.mp h).1]⟩

theorem startsWith_first_two {l p : String} {c d : Char} {cs : List Char}
    (hp : p.data = c :: d :: cs) (h : strStartsWith l p = true) :
    ∃ ds, l.data = c :: d :: ds := by
  rw [strStartsWith, decide_eq_true_iff, hp] at h
  cases hd1 : l.data with
  | nil =>
    rw [hd1] at h
    simp at h
  | cons a as =>
    cases hd2 : as with
    | nil =>
      rw [hd1, hd2] at h
      simp at h
    | cons b bs =>
      rw [hd1, hd2, List.length_cons, List.length_cons, List.take_succ_cons,
        List.take_succ_cons] at h
      obtain ⟨h1, h2⟩ := List.cons.injEq _ _ _ _ |>.mp h
      obtain ⟨h3, -⟩ := List.cons.injEq _ _ _ _ |>.mp h2
      exact ⟨bs, by rw [h1, h3]⟩

/-- Two keywords with different first characters cannot both be prefixes. -/
theorem prefix_false_of_first_ne {l p q : String} {c d : Char} {cs ds : List Char}
    (hp : p.data = c :: cs) (hq : q.data = d :: ds) (hne : c ≠ d)
    (h : strStartsWith l p = true) : strStartsWith l q = false := by
  cases hsw : strStartsWith l q
  · rfl
  · obtain ⟨xs, hxs⟩ := startsWith_first hp h
    obtain ⟨ys, hys⟩ := startsWith_first hq hsw
    rw [hxs] at hys
    exact absurd (List.cons.injEq _ _ _ _ |>.mp hys).1 hne

/-- A line starting with `NAME` does not start with `NC` (they diverge at
the second character). -/
theorem name_not_nc {l : String} (h : strStartsWith l "NAME" = true) :
    strStartsWith l "NC" = false := by
  cases hsw : strStartsWith l "NC"
  · rfl
  · obtain ⟨xs, hxs⟩ := startsWith_first_two
      (show ("NAME" : String).data = 'N' :: 'A' :: ['M', 'E'] by decide) h
    obtain ⟨ys, hys⟩ := startsWith_first_two
      (show ("NC" : String).data = 'N' :: 'C' :: [] by decide) hsw
    rw [hxs] at hys
    have h2 := (List.cons.injEq _ _ _ _ |>.mp hys).2
    exact absurd (List.cons.injEq _ _ _ _ |>.mp h2).1 (by decide)

theorem FieldSpec_cons_neg {α : Type} {lines : List String} {p : String → Bool}
    {read : String → Option α} {old new : α} {l : String}
    (hp : p l = false) (h : FieldSpec lines p read old new) :
    FieldSpec (l :: lines) p read old new := by
  rw [FieldSpec, List.filter_cons_of_neg (by simp [hp])]
  exact h

theorem FieldSpec_cons_pos {α : Type} {lines : List String} {p : String → Bool}
    {read : String → Option α} {old v new : α} {l : String}
    (hp : p l = true) (hv : read l = some v)
    (h : FieldSpec lines p read v new) :
    FieldSpec (l :: lines) p read old new := by
  rw [FieldSpec, List.filter_cons_of_pos (by simp [hp])]
  rw [FieldSpec] at h
  cases hfl : lines.filter p with
  | nil =>
    rw [hfl] at h
    simp only [List.getLast?_nil] at h
    simp only [List.getLast?_singleton]
    rw [hv, h]
  | cons f fs =>
    rw [hfl] at h
    rw [List.getLast?_cons_cons]
    exact h

theorem nameData : ("NAME" : String).data = 'N' :: ['A', 'M', 'E'] := by decide

theorem gaData : ("GA" : String).data = 'G' :: ['A'] := by decide

theorem tcData : ("TC" : String).data = 'T' :: ['C'] := by decide

theorem ncData : ("NC" : String).data = 'N' :: ['C'] := by decide

theorem name_not_ga {l : String} (h : isNameLine l = true) : isGaLine l = false :=
  prefix_false_of_first_ne nameData gaData (by decide) h

theorem name_not_tc {l : String} (h : isNameLine l = true) : isTcLine l = false :=
  prefix_false_of_first_ne nameData tcData (by decide) h

theorem ga_not_tc {l : String} (h : isGaLine l = true) : isTcLine l = false :=
  prefix_false_of_first_ne gaData tcData (by decide) h

theorem ga_not_nc {l : String} (h : isGaLine l = true) : isNcLine l = false :=
  prefix_false_of_first_ne gaData ncData (by decide) h

theorem tc_not_nc {l : String} (h : isTcLine l = true) : isNcLine l = false :=
  prefix_false_of_first_ne tcData ncData (by decide) h

/-- The parser-loop invariant on sentinel-free input: the table is never
touched (the in-loop flush only happens at a sentinel), and each of
`last_name`, `ga`, `tc`, `nc` is determined by the last matching line, or
preserved when no line matches. -/
theorem parseLines_no_sentinel :
    ∀ (ls : List String) (st st' : PState),
      (∀ l ∈ ls, containsSentinel l = false) →
      parseLines st ls = Except.ok st' →
      st'.table = st.table ∧
      FieldSpec ls isNameLine secondToken st.last_name st'.last_name ∧
      FieldSpec ls isGaLine readFloatTok st.ga st'.ga ∧
      FieldSpec ls isTcLine readFloatTok st.tc st'.tc ∧
      FieldSpec ls isNcLine readFloatTok st.nc st'.nc
  | [], st, st', _, hrun => by
    simp only [parseLines, Except.ok.injEq] at hrun
    subst hrun
    exact ⟨rfl, by simp [FieldSpec], by simp [FieldSpec], by simp [FieldSpec],
      by simp [FieldSpec]⟩
  | l :: ls, st, st', hs, hrun => by
    have hsl : containsSentinel l = false := hs l (List.mem_cons_self _ _)
    have hstail : ∀ l2 ∈ ls, containsSentinel l2 = false :=
      fun l2 hl2 => hs l2 (List.mem_cons_of_mem _ hl2)
    cases hn : isNameLine l with
    | true =>
      cases hst : secondToken l with
      | none =>
        have hpl : parseLine st l = Except.error () := by
          simp [parseLine, hsl, hn, hst]
        simp only [parseLines, hpl] at hrun
        simp at hrun
      | some nm =>
        have hpl : parseLine st l = Except.ok { st with last_name := nm } := by
          simp [parseLine, hsl, hn, hst]
        simp only [parseLines, hpl] at hrun
        obtain ⟨ht, hname, hga, htc, hnc⟩ :=
          parseLines_no_sentinel ls _ st' hstail hrun
        exact ⟨ht, FieldSpec_cons_pos hn hst hname,
          FieldSpec_cons_neg (name_not_ga hn) hga,
          FieldSpec_cons_neg (name_not_tc hn) htc,
          FieldSpec_cons_neg (name_not_nc hn) hnc⟩
    | false =>
      cases hg : isGaLine l with
      | true =>
        cases hpf : readFloatTok l with
        | none =>
          have hpl : parseLine st l = Except.error () := by
            simp [parseLine, hsl, hn, hg, hpf]
          simp only [parseLines, hpl] at hrun
          simp at hrun
        | some v =>
          have hpl : parseLine st l = Except.ok { st with ga := v } := by
            simp [parseLine, hsl, hn, hg, hpf]
          simp only [parseLines, hpl] at hrun
          obtain ⟨ht, hname, hga, htc, hnc⟩ :=
            parseLines_no_sentinel ls _ st' hstail hrun
          exact ⟨ht, FieldSpec_cons_neg hn hname,
            FieldSpec_cons_pos hg hpf hga,
            FieldSpec_cons_neg (ga_not_tc hg) htc,
            FieldSpec_cons_neg (ga_not_nc hg) hnc⟩
      | false =>
        cases htl : isTcLine l with
        | true =>
          cases hpf : readFloatTok l with
          | none =>
            have hpl : parseLine st l = Except.error () := by
              simp [parseLine, hsl, hn, hg, htl, hpf]
            simp only [parseLines, hpl] at hrun
            simp at hrun
          | some v =>
            have hpl : parseLine st l = Except.ok { st with tc := v } := by
              simp [parseLine, hsl, hn, hg, htl, hpf]
            simp only [parseLines, hpl] at hrun
            obtain ⟨ht, hname, hga, htc, hnc⟩ :=
              parseLines_no_sentinel ls _ st' hstail hrun
            exact ⟨ht, FieldSpec_cons_neg hn hname,
              FieldSpec_cons_neg hg hga,
              FieldSpec_cons_pos htl hpf htc,
              FieldSpec_cons_neg (tc_not_nc htl) hnc⟩
        | false =>
          cases hcl : isNcLine l with
          | true =>
            cases hpf : readFloatTok l with
            | none =>
              have hpl : parseLine st l = Except.error () := by
                simp [parseLine, hsl, hn, hg, htl, hcl, hpf]
              simp only [parseLines, hpl] at hrun
              simp at hrun
            | some v =>
              have hpl : parseLine st l = Except.ok { st with nc := v } := by
                simp [parseLine, hsl, hn, hg, htl, hcl, hpf]
              simp only [parseLines, hpl] at hrun
              obtain ⟨ht, hname, hga, htc, hnc⟩ :=
                parseLines_no_sentinel ls _ st' hstail hrun
              exact ⟨ht, FieldSpec_cons_neg hn hname,
                FieldSpec_cons_neg hg hga,
                FieldSpec_cons_neg htl htc,
                FieldSpec_cons_pos hcl hpf hnc⟩
          | false =>
            have hpl : parseLine st l = Except.ok st := by
              simp [parseLine, hsl, hn, hg, htl, hcl]
            simp only [parseLines, hpl] at hrun
            obtain ⟨ht, hname, hga, htc, hnc⟩ :=
              parseLines_no_sentinel ls _ st' hstail hrun
            exact ⟨ht, FieldSpec_cons_neg hn hname,
              FieldSpec_cons_neg hg hga,
              FieldSpec_cons_neg htl htc,
              FieldSpec_cons_neg hcl hnc⟩

/-- C7: on a file consisting of a single profile block with no trailing
sentinel — no sentinel line at all, exactly one `NAME` line carrying name
`n` — a successful parse returns a table with exactly one entry, keyed by
`n`; each cutoff equals the value of its unique line when present, and
defaults to `0.0` when the block has no such line (the end-of-input
flush). -/
theorem claim_C7_single_block (ls : List String) (nl : String) (n : String)
    (t : CmTable)
    (hsent : ∀ l ∈ ls, containsSentinel l = false)
    (hname : ls.filter isNameLine = [nl])
    (hn : secondToken nl = some n)
    (hok : parse_cm_file ls = Except.ok t) :
    ∃ cut : CmCutoff, t = [(n, cut)] ∧
      (ls.filter isGaLine = [] → cut.GA = 0) ∧
      (∀ l v, ls.filter isGaLine = [l] → readFloatTok l = some v → cut.GA = v) ∧
      (ls.filter isTcLine = [] → cut.TC = 0) ∧
      (∀ l v, ls.filter isTcLine = [l] → readFloatTok l = some v → cut.TC = v) ∧
      (ls.filter isNcLine = [] → cut.NC = 0) ∧
      (∀ l v, ls.filter isNcLine = [l] → readFloatTok l = some v → cut.NC = v) := by
  rw [parse_cm_file] at hok
  cases hrun : parseLines initState ls with
  | error e =>
    rw [hrun] at hok
    simp at hok
  | ok st =>
    rw [hrun] at hok
    simp only [Except.ok.injEq] at hok
    obtain ⟨htab, hnamef, hgaf, htcf, hncf⟩ :=
      parseLines_no_sentinel ls initState st hsent hrun
    have hln : st.last_name = n := by
      rw [FieldSpec, hname] at hnamef
      simp only [List.getLast?_singleton] at hnamef
      rw [hn] at hnamef
      exact (Option.some.injEq _ _ |>.mp hnamef).symm
    refine ⟨⟨st.ga, st.tc, st.nc⟩, ?_, ?_, ?_, ?_, ?_, ?_, ?_⟩
    · rw [← hok, flushBlock, htab, hln]
      rfl
    · intro hga
      rw [FieldSpec, hga] at hgaf
      simp only [List.getLast?_nil] at hgaf
      exact hgaf
    · intro l v hga hv
      rw [FieldSpec, hga] at hgaf
      simp only [List.getLast?_singleton] at hgaf
      rw [hv] at hgaf
      exact (Option.some.injEq _ _ |>.mp hgaf).symm
    · intro htc
      rw [FieldSpec, htc] at htcf
      simp only [List.getLast?_nil] at htcf
      exact htcf
    · intro l v htc hv
      rw [FieldSpec, htc] at htcf
      simp only [List.getLast?_singleton] at htcf
      rw [hv] at htcf
      exact (Option.some.injEq _ _ |>.mp htcf).symm
    · intro hnc
      rw [FieldSpec, hnc] at hncf
      simp only [List.getLast?_nil] at hncf
      exact hncf
    · intro l v hnc hv
      rw [FieldSpec, hnc] at hncf
      simp only [List.getLast?_singleton] at hncf
      rw [hv] at hncf
      exact (Option.some.injEq _ _ |>.mp hncf).symm

/-- Concrete instance of C7: the single block of `exLs7` is flushed at end
of input, `GA` and `NC` are read, and the absent `TC` defaults to 0. -/
theorem claim_C7_witness :
    ∃ cut : CmCutoff,
      ([("Twister-P5", ⟨45, 0, 30⟩)] : CmTable) = [("Twister-P5", cut)] ∧
      cut.GA = 45 ∧ cut.TC = 0 ∧ cut.NC = 30 := by
  obtain ⟨cut, h1, h2, h3, h4, h5, h6, h7⟩ :=
    claim_C7_single_block exLs7 "NAME Twister-P5" "Twister-P5"
      [("Twister-P5", ⟨45, 0, 30⟩)] (by decide) (by decide) (by decide) (by decide)
  exact ⟨cut, h1, h3 "GA 45" 45 (by decide) (by decide), h4 (by decide),
    h7 "NC 30" 30 (by decide) (by decide)⟩

theorem parseLines_inert (ls : List String) (st : PState)
    (hin : ∀ l ∈ ls, inertLine l = true) :
    parseLines st ls = Except.ok st := by
  induction ls with
  | nil => rfl
  | cons l ls ih =>
    have h := hin l (List.mem_cons_self _ _)
    simp only [inertLine, Bool.and_eq_true, Bool.not_eq_true'] at h
    obtain ⟨⟨⟨⟨h1, h2⟩, h3⟩, h4⟩, h5⟩ := h
    have hpl : parseLine st l = Except.ok st := by
      simp [parseLine, h1, h2, h3, h4, h5]
    simp only [parseLines, hpl]
    exact ih fun l2 hl2 => hin l2 (List.mem_cons_of_mem _ hl2)

theorem parseLines_append (a b : List String) (st : PState) :
    parseLines st (a ++ b) =
      match parseLines st a with
      | Except.error e => Except.error e
      | Except.ok st1 => parseLines st1 b := by
  induction a generalizing st with
  | nil => simp [parseLines]
  | cons l a ih =>
    rw [List.cons_append]
    cases hpl : parseLine st l with
    | error e => simp only [parseLines, hpl]
    | ok st1 =>
      simp only [parseLines, hpl]
      exact ih st1

theorem lookupCutoff_append (t t' : CmTable) (k : String) :
    lookupCutoff (t ++ t') k =
      match lookupCutoff t k with
      | some v => some v
      | none => lookupCutoff t' k := by
  induction t with
  | nil => rfl
  | cons a t ih =>
    obtain ⟨ak, av⟩ := a
    by_cases h : ak = k
    · simp [lookupCutoff, h]
    · simp [lookupCutoff, h, ih]

theorem lookupCutoff_overwrite (t : CmTable) (k : String) (v : CmCutoff) :
    lookupCutoff (t.map fun p => if p.1 = k then (k, v) else p) k =
      if (lookupCutoff t k).isSome then some v else none := by
  induction t with
  | nil => rfl
  | cons a t ih =>
    obtain ⟨ak, av⟩ := a
    rw [List.map_cons]
    by_cases h : ak = k
    · subst h
      have h1 : (if (ak, av).1 = ak then (ak, v) else (ak, av)) = (ak, v) := by
        simp
      have h2 : lookupCutoff ((ak, av) :: t) ak = some av := by
        simp [lookupCutoff]
      rw [h1, h2]
      simp [lookupCutoff]
    · have h1 : (if (ak, av).1 = k then (k, v) else (ak, av)) = (ak, av) := by
        simp [h]
      have h2 : lookupCutoff ((ak, av) :: t) k = lookupCutoff t k := by
        simp [lookupCutoff, h]
      have h3 : lookupCutoff ((ak, av) ::
          t.map (fun p => if p.1 = k then (k, v) else p)) k =
          lookupCutoff (t.map fun p => if p.1 = k then (k, v) else p) k := by
        simp [lookupCutoff, h]
      rw [h1, h2, h3, ih]

/-- After `d[k] = v`, looking up `k` gives `v`. -/
theorem lookupCutoff_dictInsert (t : CmTable) (k : String) (v : CmCutoff) :
    lookupCutoff (dictInsert t k v) k = some v := by
  rw [dictInsert]
  by_cases hk : (lookupCutoff t k).isSome
  · rw [if_pos hk, lookupCutoff_overwrite, if_pos hk]
  · rw [if_neg hk, lookupCutoff_append,
      Option.not_isSome_iff_eq_none.mp hk]
    simp [lookupCutoff]

/-- C10 fails on the code as stated: the file `["GA 5"]` has no sentinel
and no `NAME` line, and the end-of-input flush does produce an entry keyed
by the empty string — but its `GA` is `5`, not `0.0`, because the `GA`
line updated the in-progress block. -/
theorem claim_C10_counterexample :
    parse_cm_file ["GA 5"] = Except.ok [("", ⟨5, 0, 0⟩)] ∧
      CmCutoff.GA ⟨5, 0, 0⟩ ≠ 0 :=
  ⟨by decide, by decide⟩

/-- C10 (amended): when no `NAME`, `GA`, `TC` or `NC` line (and no further
sentinel) follows the last sentinel — or the whole file is such, including
the empty file — the unconditional end-of-input flush produces an entry
keyed by the empty string with all three cutoffs `0.0`. -/
theorem claim_C10_empty_name_flush :
    (∀ (pre : List String) (s : String) (post : List String) (t : CmTable),
      containsSentinel s = true →
      (∀ l ∈ post, inertLine l = true) →
      parse_cm_file (pre ++ s :: post) = Except.ok t →
      lookupCutoff t "" = some ⟨0, 0, 0⟩) ∧
    (∀ (ls : List String) (t : CmTable),
      (∀ l ∈ ls, inertLine l = true) →
      parse_cm_file ls = Except.ok t →
      lookupCutoff t "" = some ⟨0, 0, 0⟩) := by
  constructor
  · intro pre s post t hsen hin hok
    rw [parse_cm_file, parseLines_append] at hok
    cases hpre : parseLines initState pre with
    | error e =>
      rw [hpre] at hok
      simp at hok
    | ok st0 =>
      rw [hpre] at hok
      have hpls : parseLine st0 s = Except.ok
          ⟨"", 0, 0, 0, if st0.last_name ≠ "" then flushBlock st0 else st0.table⟩ := by
        simp [parseLine, hsen]
      simp only [parseLines, hpls, parseLines_inert post _ hin,
        Except.ok.injEq] at hok
      rw [← hok, flushBlock]
      exact lookupCutoff_dictInsert _ _ _
  · intro ls t hin hok
    rw [parse_cm_file, parseLines_inert ls initState hin] at hok
    simp only [Except.ok.injEq] at hok
    rw [← hok, flushBlock]
    exact lookupCutoff_dictInsert _ _ _

/-- Concrete instance of the amended C10: a file whose last sentinel is
followed only by an inert line yields the empty-name all-zero entry, and
so does the empty file. -/
theorem claim_C10_witness :
    lookupCutoff [("Foo", ⟨7, 0, 0⟩), ("", ⟨0, 0, 0⟩)] "" = some ⟨0, 0, 0⟩ ∧
    lookupCutoff [("", ⟨0, 0, 0⟩)] "" = some ⟨0, 0, 0⟩ :=
  ⟨claim_C10_empty_name_flush.1 ["NAME Foo", "GA 7"] "INFERNAL1/a [1.1.4]"
      ["banana line"] [("Foo", ⟨7, 0, 0⟩), ("", ⟨0, 0, 0⟩)]
      (by decide) (by decide) (by decide),
   claim_C10_empty_name_flush.2 [] [("", ⟨0, 0, 0⟩)] (by decide) (by decide)⟩

end Vdsearch
